import Mathlib

/-!
Verification of `monitor_uber.py` (uber-direct-monitor).

The script is a linear batch job: fetch the prior-day deliveries per store
from an HTTP API, aggregate per-store counts, and alert by email (or by
console in degraded mode).  We embed the script shallowly:

* JSON scalar values read from delivery records are modelled by `JVal`
  (the script only ever reads string-or-null fields from records);
* Python dicts are insertion-ordered association lists (`Dict`);
* the HTTP layer is an explicit oracle mapping request URLs (for the
  deliveries-list endpoint) resp. (store, order) pairs (for the detail
  endpoint) to responses;
* the SMTP session is an oracle returning success or a raised error;
* console progress prints inside the fetch loops are not modelled (no
  claim mentions them); the prints of the `__main__` block and of
  `send_email` are modelled as part of the run result;
* the one uncaught exception reachable in the modelled universe — the
  status read of line 110 calling `.upper()` on a null value, outside the
  `try` block of the cancellation pass — is modelled explicitly
  (`statusCrashes`, `earlyStepE`, `check_early_cancellationsE`) and
  aborts the run with exit code 1.
-/

/-- A JSON scalar as read from a delivery record: the script only reads
string-valued (or absent / null) fields from records, so only these two
shapes are modelled. -/
inductive JVal where
  | null
  | str (s : String)
deriving DecidableEq, Repr

/-- A Python dict with string keys: an insertion-ordered association list.
Python dicts hold each key at most once; the operations below (`Dict.set`,
`Dict.merge`) preserve that, and lookups read the first matching key. -/
abbrev Dict := List (String × JVal)

/-- Value of key `k` when present (`some v`), `none` when the key is absent. -/
def Dict.getVal (d : Dict) (k : String) : Option JVal :=
  (List.find? (fun p => p.1 == k) d).map (fun p => p.2)

/-- Python `d.get(k)`: the stored value, or `None` when the key is absent. -/
def Dict.get (d : Dict) (k : String) : JVal :=
  match d.getVal k with
  | some v => v
  | none => JVal.null

/-- Python `d.get(k, default)` for a string default: the non-raising read.
A present-but-null value makes the subsequent `.upper()` raise
`AttributeError` in Python; this read maps it to the default instead, so
every use site must account for the raise separately.  For the
`last_known_delivery_status` read (line 120, inside the `try`) the raise
is caught and the record skipped — the same counter outcome as the
default; for the `status` read (line 110, outside the `try`) the raise is
uncaught and aborts the run, which `earlyStepE` models explicitly. -/
def Dict.getStrD (d : Dict) (k : String) (dflt : String) : String :=
  match d.getVal k with
  | some (JVal.str s) => s
  | some JVal.null => dflt
  | none => dflt

/-- Whether key `k` is present in the dict. -/
def Dict.hasKey (d : Dict) (k : String) : Bool :=
  List.any d (fun p => p.1 == k)

/-- Python `d[k] = v`: update the value in place when `k` is present
(keeping its position, as Python dicts do), else append at the end. -/
def Dict.set (d : Dict) (k : String) (v : JVal) : Dict :=
  if d.hasKey k then List.map (fun p => if p.1 == k then (k, v) else p) d
  else List.append d [(k, v)]

/-- Python `{**a, **b}`-style merge: assign the pairs of `b` into `a`
in order; a key of `b` already present in `a` keeps its position in `a`
but takes the value from `b` (later assignments win). -/
def Dict.merge (a b : Dict) : Dict :=
  List.foldl (fun acc p => Dict.set acc p.1 p.2) a b

/-- Python truthiness of the values we model: `None` and the empty string are falsy,
every other string is truthy. -/
def JVal.truthy : JVal → Bool
  | JVal.null => false
  | JVal.str s => s ≠ ""

/-- The string content of a scalar (used where Python interpolates and the
value is known to be a string). -/
def JVal.toStr : JVal → String
  | JVal.null => ""
  | JVal.str s => s

/-- Python `a or b`: `a` when truthy, else `b`. -/
def JVal.pyOr (a b : JVal) : JVal :=
  if a.truthy then a else b

/-- Python string interpolation of an optional string: `None` renders as
the literal text `"None"` (as in the detail-URL f-string). -/
def pyStr : Option String → String
  | none => "None"
  | some s => s

/-- Does `hay` start with `needle`? (character-by-character) -/
def listStartsWith : List Char → List Char → Bool
  | _, [] => true
  | [], _ :: _ => false
  | a :: as, b :: bs => a == b && listStartsWith as bs

/-- Does `hay` contain `needle` as a contiguous run? -/
def listContainsSub (needle : List Char) : List Char → Bool
  | [] => listStartsWith [] needle
  | c :: t => listStartsWith (c :: t) needle || listContainsSub needle t

/-- Python `needle in hay` on strings: contiguous-substring test. -/
def strContainsSub (hay needle : String) : Bool :=
  listContainsSub needle.data hay.data

/-- Python `.upper()`: character-wise uppercase (the status fields the
script uppercases are ASCII enum tokens, where this agrees with
Python). -/
def pyUpper (s : String) : String :=
  String.mk (List.map Char.toUpper s.data)

/-! ## Configuration (`STORE_NAMES`, `STORE_IDS`, `get_store_name`) -/

/-- The static UUID-to-name table of the script, in source order. -/
def STORE_NAMES : List (String × String) :=
  [("cb4a95b7-5c2a-4189-8db4-2155ae98d6ed", "Grand Prairie"),
   ("2c4c9978-85a7-4f84-9335-070674f36c0b", "Benbrook"),
   ("dd5f7384-5549-4255-800e-dd9614e43f3b", "Abilene"),
   ("498ec771-b4bb-4422-8adc-f6a69e4eae9a", "Azle"),
   ("bd152c15-b838-4353-8e28-3868dc34a672", "Granbury"),
   ("0e3909c9-93a0-4984-bdfd-3610796933cc", "Harlingen"),
   ("bc8d582d-5951-4a8c-a831-8cf3251a9e22", "San Angelo"),
   ("363d3be2-7139-42fd-b4ea-7bb5a6d6b031", "Weatherford"),
   ("0be4dcab-b3c4-4c1d-a490-c965fa163eab", "Stephenville")]

/-- `STORE_IDS = list(STORE_NAMES.keys())`. -/
def STORE_IDS : List String := STORE_NAMES.map Prod.fst

/-- `get_store_name`: the mapped name, falling back to the identifier. -/
def get_store_name (store_id : String) : String :=
  match List.find? (fun p => p.1 == store_id) STORE_NAMES with
  | some p => p.2
  | none => store_id

def UBER_BASE_URL : String := "https://api.uber.com/v1"

/-! ## The overuse aggregator (`analyze_overuse`, lines 91-99) -/

/-- An insertion-ordered counter dict (`store_counts` / `early_cancels`),
keyed by `κ`.  Python dict semantics: first write appends the key, later
writes update in place. -/
abbrev CMap (κ : Type) : Type := List (κ × Nat)

/-- `m[k] = m.get(k, 0) + 1`: increment in place, or append `(k, 1)`. -/
def CMap.bump {κ : Type} [BEq κ] (m : CMap κ) (k : κ) : CMap κ :=
  if List.any m (fun p => p.1 == k) then
    List.map (fun p => if p.1 == k then (p.1, p.2 + 1) else p) m
  else List.append m [(k, 1)]

/-- `m.get(k, 0)`. -/
def CMap.getD {κ : Type} [BEq κ] (m : CMap κ) (k : κ) : Nat :=
  match List.find? (fun p => p.1 == k) m with
  | some p => p.2
  | none => 0

/-- `deliv.get("store_id")` followed by the truthiness guard of the loop
`if store_id:` — `some s` exactly when the field is present, non-null and
non-empty. -/
def storeIdOf (deliv : Dict) : Option String :=
  match Dict.get deliv "store_id" with
  | JVal.str s => if s = "" then none else some s
  | JVal.null => none

/-- The loop body of `analyze_overuse`: count the record when its
`store_id` is truthy, else skip it silently. -/
def overuseStep (m : CMap String) (deliv : Dict) : CMap String :=
  match storeIdOf deliv with
  | some s => CMap.bump m s
  | none => m

/-- `analyze_overuse(deliveries)`: build `store_counts` over the records,
then keep the `(store_id, count)` items with `count >= 3`, in dict
(= first-occurrence insertion) order. -/
def analyze_overuse (deliveries : List Dict) : List (String × Nat) :=
  let store_counts := List.foldl overuseStep [] deliveries
  List.filter (fun p => 3 ≤ p.2) store_counts

/-! ## Reference notions used to state the claims -/

/-- Occurrence count of store identifier `s` in the input: the number of
records whose `store_id` field holds exactly the string `s`. -/
def storeCount (deliveries : List Dict) (s : String) : Nat :=
  (List.filter (fun d => Dict.get d "store_id" == JVal.str s) deliveries).length

/-- First occurrences of a list, in input order: `firstOccs [b,a,b] = [b,a]`.
This is the insertion order of the keys of a Python dict filled while
scanning the list. -/
def firstOccs {κ : Type} [BEq κ] : List κ → List κ
  | [] => []
  | a :: l => a :: firstOccs (List.filter (fun x => !(x == a)) l)
termination_by l => l.length
decreasing_by
  simp only [List.length_cons]
  exact Nat.lt_succ_of_le (List.length_filter_le _ _)

/-- Number of occurrences of `k` in `xs`. -/
def occCount {κ : Type} [BEq κ] (xs : List κ) (k : κ) : Nat :=
  (List.filter (fun x => x == k) xs).length

/-! ## The delivery fetcher (`fetch_all_deliveries`, lines 56-89)

The HTTP layer is an oracle from request URLs to responses.  The
day-window query parameters (`start_dt`, `end_dt`) are appended to the
URL by the HTTP library and carry the fixed prior-day window; no claim
depends on the window, so the oracle is keyed by the path alone. -/

/-- The parsed JSON body of a deliveries-list response: the `deliveries`
array (`data.get("deliveries", [...])` with an absent key read as the empty list) and
the "next page" pointer the response may carry. -/
structure PageBody where
  deliveries : List Dict
  next : Option String
deriving DecidableEq

/-- Outcome of one GET against the list endpoint: a 200 response with a
parsed body, a non-200 status with its text, or a raised transport
exception. -/
inductive PageResult where
  | ok (body : PageBody)
  | httpError (code : Nat) (text : String)
  | exn (msg : String)
deriving DecidableEq

/-- The deliveries-list URL for one store. -/
def listUrl (store_id : String) : String :=
  UBER_BASE_URL ++ "/customers/" ++ store_id ++ "/deliveries"

/-- The tagging dict literal (`store_id` first, then `**deliv`): it starts with the
tag, then spreads the payload record — so a `store_id` key already in the
payload overwrites the tag (later assignments win in Python). -/
def tagRecord (store_id : String) (deliv : Dict) : Dict :=
  Dict.merge [("store_id", JVal.str store_id)] deliv

/-- What the fetcher produced: the accumulated records and the URLs it
issued GET requests to (one per store, in loop order, regardless of the
response outcome). -/
structure FetchResult where
  records : List Dict
  requests : List String
deriving DecidableEq

/-- One iteration of the per-store fetch loop: issue the GET; on a 200
response tag and append the page records; on a non-200 status or an
exception log and continue with the next store. -/
def fetchStep (w : String → PageResult) (acc : FetchResult) (store_id : String) :
    FetchResult :=
  let url := listUrl store_id
  match w url with
  | PageResult.ok body =>
      { records := acc.records ++ List.map (tagRecord store_id) body.deliveries,
        requests := acc.requests ++ [url] }
  | PageResult.httpError _ _ => { acc with requests := acc.requests ++ [url] }
  | PageResult.exn _ => { acc with requests := acc.requests ++ [url] }

/-- `fetch_all_deliveries(token)`: loop over `STORE_IDS`, one GET each,
concatenating tagged page records.  (The `next` pointer of the body is never
consulted by the source.) -/
def fetch_all_deliveries (w : String → PageResult) : FetchResult :=
  List.foldl (fetchStep w) { records := [], requests := [] } STORE_IDS

/-! ## The early-cancellation pass (`check_early_cancellations`, lines 101-128) -/

/-- Outcome of one GET against the per-delivery detail endpoint: `ok cd`
is a 200 response whose parsed body has `cd` as its
`cancellation_details` object (`detail.get("cancellation_details", ...)`, defaulting to the empty dict;
an absent key is the empty dict); otherwise a non-200 status or a raised
exception, both logged and skipped by the source. -/
inductive DetailResult where
  | ok (cancellation_details : Dict)
  | httpError (code : Nat) (text : String)
  | exn (msg : String)
deriving DecidableEq

/-- The detail-fetch oracle, keyed by the `store_id` value of the record and
the order identifier — exactly the data the detail URL is built from. -/
abbrev DetailOracle := Option String → String → DetailResult

/-- The detail URL: a Python f-string, so a `None` store renders as the
literal text `None`. -/
def detailUrl (store_id : Option String) (order_id : String) : String :=
  UBER_BASE_URL ++ "/customers/" ++ pyStr store_id ++ "/deliveries/" ++ order_id

/-- `deliv.get("order_id") or deliv.get("delivery_id")`. -/
def orderIdVal (deliv : Dict) : JVal :=
  JVal.pyOr (Dict.get deliv "order_id") (Dict.get deliv "delivery_id")

/-- `deliv.get("status", ...).upper()` with the empty string as default:
the value of line 110 on records where it does not raise.  Line 110 sits
outside the `try` block beginning at line 115, so on a record whose
`status` key holds null (and whose order identifier is truthy, or the
loop would already have skipped it) Python raises an uncaught
`AttributeError` instead; that raising case is `statusCrashes` below and
is modelled by `earlyStepE`. -/
def statusOf (deliv : Dict) : String :=
  pyUpper (Dict.getStrD deliv "status" "")

/-- Whether line 110 raises on this record: the order identifier is
truthy (line 109 did not `continue`) and the `status` key is present with
a null value, so `.upper()` is called on `None`. -/
def statusCrashes (deliv : Dict) : Bool :=
  (orderIdVal deliv).truthy && decide (Dict.getVal deliv "status" = some JVal.null)

/-- The guard testing whether CANCEL occurs in the status or the status equals FAILED. -/
def cancelEligible (deliv : Dict) : Bool :=
  strContainsSub (statusOf deliv) "CANCEL" || statusOf deliv == "FAILED"

/-- `deliv.get("store_id")` as used in the cancellation pass: no
truthiness guard here, the raw value (possibly `None`, possibly empty)
becomes the counter key. -/
def storeKey (deliv : Dict) : Option String :=
  match Dict.get deliv "store_id" with
  | JVal.null => none
  | JVal.str s => some s

/-- The loop body of `check_early_cancellations` for one record: skip
records without a truthy order identifier, filter to cancellation/failure
statuses, fetch the detail, and count the store of the record when the last
known delivery status was one of the two pre-pickup states.  A non-200
detail response or a raised exception is logged and the record skipped. -/
def earlyStep (fetchDetail : DetailOracle) (m : CMap (Option String)) (deliv : Dict) :
    CMap (Option String) :=
  let order_id := orderIdVal deliv
  if order_id.truthy then
    if cancelEligible deliv then
      let store_id := storeKey deliv
      match fetchDetail store_id order_id.toStr with
      | DetailResult.ok cancellation_details =>
          let last_status :=
            pyUpper (Dict.getStrD cancellation_details "last_known_delivery_status" "")
          if List.contains ["SCHEDULED", "EN_ROUTE_TO_PICKUP"] last_status then
            CMap.bump m store_id
          else m
      | DetailResult.httpError _ _ => m
      | DetailResult.exn _ => m
    else m
  else m

/-- `check_early_cancellations(token, deliveries)`: fold the loop body
over the records, then return the `(store, count)` items with a positive
count, in dict insertion order.  This is the value the pass computes on
inputs where line 110 never raises; `check_early_cancellationsE` below is
the raise-aware version the run model uses. -/
def check_early_cancellations (fetchDetail : DetailOracle) (deliveries : List Dict) :
    List (Option String × Nat) :=
  let early_cancels := List.foldl (earlyStep fetchDetail) [] deliveries
  List.filter (fun p => 0 < p.2) early_cancels

/-- The loop body with the uncaught raise of line 110 made explicit: a
record with a truthy order identifier whose `status` key holds null makes
`.upper()` raise `AttributeError` outside the `try` block, aborting the
whole pass; on every other record the iteration is `earlyStep`. -/
def earlyStepE (fetchDetail : DetailOracle) (m : CMap (Option String)) (deliv : Dict) :
    Except String (CMap (Option String)) :=
  if (orderIdVal deliv).truthy then
    match Dict.getVal deliv "status" with
    | some JVal.null =>
        Except.error "AttributeError: NoneType object has no attribute upper"
    | _ => Except.ok (earlyStep fetchDetail m deliv)
  else Except.ok m

/-- `check_early_cancellations` with the uncaught line-110 raise
propagated: the fold aborts at the first record on which `.upper()` is
called on `None`, and the exception escapes the function (there is no
handler around the loop). -/
def check_early_cancellationsE (fetchDetail : DetailOracle) (deliveries : List Dict) :
    Except String (List (Option String × Nat)) := do
  let early_cancels ← List.foldlM (earlyStepE fetchDetail) [] deliveries
  return List.filter (fun p => 0 < p.2) early_cancels

/-- The detail URLs the pass issues GETs to: one per record that passes
the order-identifier and cancellation-status guards (the GET happens even
when its outcome is then an error). -/
def earlyRequests (deliveries : List Dict) : List String :=
  deliveries.filterMap (fun d =>
    if (orderIdVal d).truthy && cancelEligible d then
      some (detailUrl (storeKey d) (orderIdVal d).toStr)
    else none)

/-! ## The notifier (`send_email`, lines 35-54) -/

/-- Python truthiness of an optional environment string: unset and empty
are falsy. -/
def pyTruthyOpt : Option String → Bool
  | none => false
  | some s => s ≠ ""

/-- The mail configuration read from the environment: `EMAIL_FROM` (an
`os.getenv` with a non-empty default, so a string that is empty only when
the variable is set to the empty string) and `EMAIL_PASSWORD`. -/
structure MailConfig where
  email_from : String
  email_password : Option String

/-- `if not EMAIL_FROM or not EMAIL_PASSWORD`. -/
def credsAbsent (cfg : MailConfig) : Bool :=
  cfg.email_from == "" || !pyTruthyOpt cfg.email_password

/-- The SMTP session as an oracle on (subject, body): `Except.error e`
models an exception raised by any step of the `try` block (connect,
`starttls`, `login`, `sendmail`, `quit`). -/
abbrev SmtpOracle := String → String → Except String Unit

/-- What one `send_email` call did.  `consoleAlert` is the degraded-mode
print `[ALERT - NO EMAIL CONFIG] subject: body`; `sent` printed the
success line; `failed` is the `Email failed` print of the handler. -/
inductive MailOp where
  | consoleAlert (subject body : String)
  | sent (subject : String)
  | failed (subject err : String)
deriving DecidableEq

/-- `send_email(subject, body)`: print to the console when credentials
are absent, otherwise attempt the SMTP send, catching any raised error.
The function never propagates an exception: every path returns a
`MailOp`. -/
def send_email (cfg : MailConfig) (smtp : SmtpOracle) (subject body : String) : MailOp :=
  if credsAbsent cfg then
    MailOp.consoleAlert subject body
  else
    match smtp subject body with
    | Except.ok _ => MailOp.sent subject
    | Except.error e => MailOp.failed subject e

/-! ## The `__main__` block (lines 130-161) -/

/-- The environment the script reads at startup. -/
structure Env where
  uber_token : Option String
  mail : MailConfig

/-- Observable outcome of a run: the process exit code, the URLs GET
requests were issued to, the lines printed by the `__main__` block (the
dated progress prints of the fetch loop are not modelled), and the
notifier calls made. -/
structure RunResult where
  exitCode : Nat
  requests : List String
  printed : List String
  mailOps : List MailOp
deriving DecidableEq

/-- The overuse alert body built in `__main__`. -/
def overuseBody (overusing : List (String × Nat)) : String :=
  "Stores overusing Uber Direct (≥3 deliveries) yesterday:\n\n" ++
  String.intercalate "\n"
    (overusing.map (fun p => get_store_name p.1 ++ " (" ++ toString p.2 ++ "x)")) ++
  "\n\nAction needed: Review and limit if necessary."

/-- The early-cancellation alert body built in `__main__` (a `None` store
key renders as the literal text `None` through the f-string). -/
def earlyBody (early : List (Option String × Nat)) : String :=
  "Stores with early cancellations (before driver arrival) yesterday:\n\n" ++
  String.intercalate "\n"
    (early.map (fun p => get_store_name (pyStr p.1) ++ " (" ++ toString p.2 ++ "x)")) ++
  "\n\nAction needed: Train staff on proper usage."

/-- The `__main__` block: missing/empty `UBER_TOKEN` exits 1 before any
network call; an empty fetched collection exits 0 after the
"No data fetched" print; otherwise `analyze_overuse` runs (line 143) and
then the early-cancellation pass (line 144).  When that pass raises the
uncaught `AttributeError` of line 110 the process dies there with exit
code 1: no notifier call is ever reached, the traceback goes to stderr
(no modelled stdout line), and only the detail requests issued before the
raising record were made.  Otherwise each non-empty aggregate triggers
one notifier call and the script ends (exit code 0) with either the
no-incidents or the alerts-sent line. -/
def runMain (env : Env) (w : String → PageResult) (fetchDetail : DetailOracle)
    (smtp : SmtpOracle) : RunResult :=
  if !pyTruthyOpt env.uber_token then
    { exitCode := 1, requests := [],
      printed := ["Error: Set UBER_TOKEN env var"], mailOps := [] }
  else
    let fetched := fetch_all_deliveries w
    if fetched.records.isEmpty then
      { exitCode := 0, requests := fetched.requests,
        printed := ["No data fetched - check API/token or endpoints."], mailOps := [] }
    else
      let overusing := analyze_overuse fetched.records
      match check_early_cancellationsE fetchDetail fetched.records with
      | Except.error _ =>
          { exitCode := 1,
            requests := fetched.requests ++
              earlyRequests (fetched.records.takeWhile (fun d => !statusCrashes d)),
            printed := [], mailOps := [] }
      | Except.ok early_cancels =>
          let ops1 :=
            if overusing.isEmpty then []
            else [send_email env.mail smtp "🚨 Uber Direct Overuse Alert"
                    (overuseBody overusing)]
          let ops2 :=
            if early_cancels.isEmpty then []
            else [send_email env.mail smtp "🚨 Uber Direct Early Cancellation Alert"
                    (earlyBody early_cancels)]
          let finalLine :=
            if overusing.isEmpty && early_cancels.isEmpty then
              "Daily check complete: No incidents."
            else "Alerts sent for incidents."
          { exitCode := 0,
            requests := fetched.requests ++ earlyRequests fetched.records,
            printed := [finalLine], mailOps := ops1 ++ ops2 }

/-- Records one store contributes to the fetch result: the tagged
first-page records of its one GET when it returned 200, nothing
otherwise. -/
def pageRecords (w : String → PageResult) (store_id : String) : List Dict :=
  match w (listUrl store_id) with
  | PageResult.ok body => List.map (tagRecord store_id) body.deliveries
  | PageResult.httpError _ _ => []
  | PageResult.exn _ => []

/-! ## Concrete fixtures used by counterexamples and witnesses -/

/-- The first store identifier of the table (Grand Prairie). -/
def sid1 : String := "cb4a95b7-5c2a-4189-8db4-2155ae98d6ed"

/-- An opaque next-page URL a paginated list response could carry. -/
def page2Url : String := listUrl sid1 ++ "?page=2"

def recPage1 : Dict := [("delivery_id", JVal.str "d-page1")]

def recPage2 : Dict := [("delivery_id", JVal.str "d-page2")]

/-- An HTTP world whose list response for `sid1` indicates pagination via
a next-page pointer; the second page holds one further record. -/
def wPaged : String → PageResult := fun url =>
  if url = listUrl sid1 then
    PageResult.ok { deliveries := [recPage1], next := some page2Url }
  else if url = page2Url then
    PageResult.ok { deliveries := [recPage2], next := none }
  else PageResult.ok { deliveries := [], next := none }

/-- A payload record that itself populates `store_id` with a foreign
value. -/
def spoofRec : Dict :=
  [("store_id", JVal.str "spoofed-store"), ("delivery_id", JVal.str "d-spoof")]

/-- An HTTP world delivering `spoofRec` on the page of the first store. -/
def wSpoof : String → PageResult := fun url =>
  if url = listUrl sid1 then PageResult.ok { deliveries := [spoofRec], next := none }
  else PageResult.ok { deliveries := [], next := none }

/-- An HTTP world answering every list request with 200 and zero
records. -/
def wEmptyOk : String → PageResult := fun _ =>
  PageResult.ok { deliveries := [], next := none }

/-- A fetched record with a truthy order identifier and a null `status`
value: line 110 raises an uncaught `AttributeError` on it. -/
def poisonRec : Dict := [("order_id", JVal.str "o-null"), ("status", JVal.null)]

/-- An HTTP world delivering only the poison record (on the page of the
first store). -/
def wPoison : String → PageResult := fun url =>
  if url = listUrl sid1 then PageResult.ok { deliveries := [poisonRec], next := none }
  else PageResult.ok { deliveries := [], next := none }

/-- An HTTP world where an overuse alert is due for `sid1` (four records
on its page) and the last record is the poison record. -/
def wPoisonOveruse : String → PageResult := fun url =>
  if url = listUrl sid1 then
    PageResult.ok
      { deliveries :=
          [[("delivery_id", JVal.str "d1")], [("delivery_id", JVal.str "d2")],
           [("delivery_id", JVal.str "d3")], poisonRec],
        next := none }
  else PageResult.ok { deliveries := [], next := none }

/-- A canceled delivery record of store `sid1`. -/
def cancelRec : Dict :=
  [("order_id", JVal.str "ord-1"), ("status", JVal.str "CANCELED"),
   ("store_id", JVal.str sid1)]

/-- A detail oracle reporting a pre-pickup cancellation. -/
def oracleSched : DetailOracle := fun _ _ =>
  DetailResult.ok [("last_known_delivery_status", JVal.str "en_route_to_pickup")]

/-- A detail oracle reporting cancellation after completion. -/
def oracleDone : DetailOracle := fun _ _ =>
  DetailResult.ok [("last_known_delivery_status", JVal.str "completed")]

/-- A detail oracle whose every request raises. -/
def oracleNone : DetailOracle := fun _ _ => DetailResult.exn "connection timeout"

/-- A second detail oracle that agrees with `oracleSched` on the query
of `cancelRec` but answers differently elsewhere. -/
def oracleSched2 : DetailOracle := fun _ order_id =>
  if order_id = "ord-1" then
    DetailResult.ok [("last_known_delivery_status", JVal.str "en_route_to_pickup")]
  else DetailResult.exn "connection timeout"

def smtpOk : SmtpOracle := fun _ _ => Except.ok ()

def smtpFail : SmtpOracle := fun _ _ => Except.error "auth failed"

/-- Mail credentials absent (`EMAIL_PASSWORD` unset). -/
def cfgNoCreds : MailConfig :=
  { email_from := "brumfidf@gmail.com", email_password := none }

/-- Mail credentials present. -/
def cfgCreds : MailConfig :=
  { email_from := "brumfidf@gmail.com", email_password := some "app-pw" }

/-- `UBER_TOKEN` unset. -/
def envNoTok : Env := { uber_token := none, mail := cfgNoCreds }

/-- `UBER_TOKEN` set. -/
def envTok : Env := { uber_token := some "token-abc", mail := cfgNoCreds }

/-! ## Lemmas about the counter dict -/

theorem CMap.bump_pos {κ : Type} [BEq κ] (m : CMap κ) (k : κ)
    (h : List.any m (fun p => p.1 == k) = true) :
    CMap.bump m k = List.map (fun p => if p.1 == k then (p.1, p.2 + 1) else p) m := by
  simp [CMap.bump, h]

theorem CMap.bump_neg {κ : Type} [BEq κ] (m : CMap κ) (k : κ)
    (h : List.any m (fun p => p.1 == k) = false) :
    CMap.bump m k = m ++ [(k, 1)] := by
  simp [CMap.bump, h]

theorem CMap.any_bump {κ : Type} [BEq κ] [LawfulBEq κ] (m : CMap κ) (k s : κ) :
    List.any (CMap.bump m k) (fun p => p.1 == s) =
      (List.any m (fun p => p.1 == s) || k == s) := by
  cases h : List.any m (fun p => p.1 == k) with
  | true =>
      rw [CMap.bump_pos m k h, List.any_map]
      have hfun : ((fun p : κ × Nat => p.1 == s) ∘
          fun p : κ × Nat => if p.1 == k then (p.1, p.2 + 1) else p) =
          (fun p : κ × Nat => p.1 == s) := by
        funext q
        by_cases hq : q.1 == k <;> simp [hq]
      rw [hfun]
      cases hks : (k == s) with
      | true =>
          have : k = s := eq_of_beq hks
          subst this
          simp [h]
      | false => simp
  | false =>
      rw [CMap.bump_neg m k h]
      simp [List.any_append]

theorem CMap.getD_bump_self {κ : Type} [BEq κ] [LawfulBEq κ] (m : CMap κ) (k : κ) :
    CMap.getD (CMap.bump m k) k = CMap.getD m k + 1 := by
  cases h : List.any m (fun p => p.1 == k) with
  | true =>
      rw [CMap.bump_pos m k h]
      have hsome : (List.find? (fun p : κ × Nat => p.1 == k) m).isSome := by
        rw [List.find?_isSome]
        simpa using h
      obtain ⟨q, hq⟩ := Option.isSome_iff_exists.mp hsome
      have hqk : (q.1 == k) = true := by
        have := List.find?_some hq
        simpa using this
      have hmap : List.find? (fun p : κ × Nat => p.1 == k)
          (List.map (fun p : κ × Nat => if p.1 == k then (p.1, p.2 + 1) else p) m) =
          some (q.1, q.2 + 1) := by
        rw [List.find?_map]
        have hfun : ((fun p : κ × Nat => p.1 == k) ∘
            fun p : κ × Nat => if p.1 == k then (p.1, p.2 + 1) else p) =
            (fun p : κ × Nat => p.1 == k) := by
          funext r
          by_cases hr : r.1 == k <;> simp [hr]
        rw [hfun, hq]
        simp [hqk]
      simp [CMap.getD, hmap, hq]
  | false =>
      rw [CMap.bump_neg m k h]
      have hnone : List.find? (fun p : κ × Nat => p.1 == k) m = none := by
        rw [List.find?_eq_none]
        intro p hp hpk
        have : List.any m (fun p => p.1 == k) = true :=
          List.any_eq_true.mpr ⟨p, hp, hpk⟩
        rw [h] at this
        exact Bool.false_ne_true this
      simp [CMap.getD, List.find?_append, hnone]

theorem CMap.getD_bump_other {κ : Type} [BEq κ] [LawfulBEq κ] (m : CMap κ) (k s : κ)
    (h : (k == s) = false) :
    CMap.getD (CMap.bump m k) s = CMap.getD m s := by
  cases hk : List.any m (fun p => p.1 == k) with
  | true =>
      rw [CMap.bump_pos m k hk]
      have hfun : ((fun p : κ × Nat => p.1 == s) ∘
          fun p : κ × Nat => if p.1 == k then (p.1, p.2 + 1) else p) =
          (fun p : κ × Nat => p.1 == s) := by
        funext r
        by_cases hr : r.1 == k <;> simp [hr]
      unfold CMap.getD
      rw [List.find?_map, hfun]
      cases hq : List.find? (fun p : κ × Nat => p.1 == s) m with
      | none => simp
      | some q =>
          have hqs : (q.1 == s) = true := by
            have := List.find?_some hq
            simpa using this
          have hqk : (q.1 == k) = false := by
            cases hqk : (q.1 == k) with
            | false => rfl
            | true =>
                have h1 : q.1 = s := eq_of_beq hqs
                have h2 : q.1 = k := eq_of_beq hqk
                rw [← h1, ← h2] at h
                simp at h
          simp [hqk]
  | false =>
      rw [CMap.bump_neg m k hk]
      unfold CMap.getD
      rw [List.find?_append]
      cases hq : List.find? (fun p : κ × Nat => p.1 == s) m with
      | none => simp [h]
      | some q => simp

theorem beq_symm_false {κ : Type} [BEq κ] [LawfulBEq κ] {a b : κ}
    (h : (a == b) = false) : (b == a) = false := by
  cases hba : (b == a) with
  | false => rfl
  | true =>
      have : b = a := eq_of_beq hba
      subst this
      rw [beq_self_eq_true] at h
      exact absurd h (by simp)

theorem occCount_cons {κ : Type} [BEq κ] (x : κ) (xs : List κ) (k : κ) :
    occCount (x :: xs) k = occCount xs k + (if x == k then 1 else 0) := by
  cases h : x == k <;> simp [occCount, List.filter_cons, h]

theorem occCount_pos {κ : Type} [BEq κ] [LawfulBEq κ] (xs : List κ) (k : κ) :
    0 < occCount xs k ↔ k ∈ xs := by
  induction xs with
  | nil => simp [occCount]
  | cons x xs ih =>
      rw [occCount_cons]
      cases h : x == k with
      | true =>
          have : x = k := eq_of_beq h
          subst this
          simp
      | false =>
          have hne : k ≠ x := by
            intro he
            subst he
            rw [beq_self_eq_true] at h
            exact absurd h (by simp)
          simp [ih, hne]

theorem mem_firstOccs {κ : Type} [BEq κ] [LawfulBEq κ] (xs : List κ) (a : κ) :
    a ∈ firstOccs xs ↔ a ∈ xs := by
  induction xs using firstOccs.induct with
  | case1 => simp [firstOccs]
  | case2 x l ih =>
      rw [firstOccs]
      by_cases hax : a = x
      · simp [hax]
      · have hb : (a == x) = false := by simpa using hax
        simp [List.mem_cons, ih, List.mem_filter, hb, hax]

theorem foldl_bump_eq {κ : Type} [BEq κ] [LawfulBEq κ] (xs : List κ) : ∀ (m : CMap κ),
    List.foldl CMap.bump m xs =
      List.map (fun p => (p.1, p.2 + occCount xs p.1)) m ++
      List.map (fun s => (s, occCount xs s))
        (firstOccs (List.filter (fun s => !(List.any m (fun p => p.1 == s))) xs)) := by
  induction xs with
  | nil =>
      intro m
      simp [occCount, firstOccs]
  | cons x xs ih =>
      intro m
      rw [List.foldl_cons, ih (CMap.bump m x)]
      cases hx : List.any m (fun p => p.1 == x) with
      | true =>
          have h2 : (fun s : κ => !(List.any (CMap.bump m x) (fun p => p.1 == s))) =
              (fun s : κ => !(List.any m (fun p => p.1 == s))) := by
            funext s
            rw [CMap.any_bump]
            cases hxs : (x == s) with
            | true =>
                have : x = s := eq_of_beq hxs
                subst this
                simp [hx]
            | false => simp
          have hA : List.map (fun p : κ × Nat => (p.1, p.2 + occCount xs p.1)) (CMap.bump m x) =
              List.map (fun p : κ × Nat => (p.1, p.2 + occCount (x :: xs) p.1)) m := by
            rw [CMap.bump_pos m x hx, List.map_map]
            apply List.map_congr_left
            intro p _
            cases hp : (p.1 == x) with
            | true =>
                have hxp : (x == p.1) = true := by
                  rw [eq_of_beq hp]
                  exact beq_self_eq_true x
                simp only [Function.comp, hp, if_pos rfl, occCount_cons, hxp, if_true]
                simp [Nat.add_assoc, Nat.add_comm 1 (occCount xs p.1)]
            | false =>
                have hxp : (x == p.1) = false := beq_symm_false hp
                simp [Function.comp, hp, occCount_cons, hxp]
          have h3 : List.filter (fun s : κ => !(List.any m (fun p => p.1 == s))) (x :: xs) =
              List.filter (fun s : κ => !(List.any m (fun p => p.1 == s))) xs := by
            rw [List.filter_cons_of_neg]
            simp [hx]
          have h4 : List.map (fun s : κ => (s, occCount xs s))
              (firstOccs (List.filter (fun s : κ => !(List.any m (fun p => p.1 == s))) xs)) =
              List.map (fun s : κ => (s, occCount (x :: xs) s))
              (firstOccs (List.filter (fun s : κ => !(List.any m (fun p => p.1 == s))) xs)) := by
            apply List.map_congr_left
            intro s hs
            have hsmem : s ∈ List.filter (fun s : κ => !(List.any m (fun p => p.1 == s))) xs :=
              (mem_firstOccs _ s).mp hs
            have hcond : (!(List.any m (fun p => p.1 == s))) = true :=
              (List.mem_filter.mp hsmem).2
            have hxs : (x == s) = false := by
              cases hxs : (x == s) with
              | false => rfl
              | true =>
                  have : x = s := eq_of_beq hxs
                  subst this
                  rw [hx] at hcond
                  exact absurd hcond (by simp)
            rw [occCount_cons, hxs]
            simp
          rw [h2, hA, h3, h4]
      | false =>
          have h2 : (fun s : κ => !(List.any (CMap.bump m x) (fun p => p.1 == s))) =
              (fun s : κ => (!(List.any m (fun p => p.1 == s))) && !(x == s)) := by
            funext s
            rw [CMap.any_bump]
            simp [Bool.not_or]
          have h1 : List.map (fun p : κ × Nat => (p.1, p.2 + occCount xs p.1)) m =
              List.map (fun p : κ × Nat => (p.1, p.2 + occCount (x :: xs) p.1)) m := by
            apply List.map_congr_left
            intro p hp
            have hpx : (p.1 == x) = false := by
              cases hpx : (p.1 == x) with
              | false => rfl
              | true =>
                  have : List.any m (fun q => q.1 == x) = true :=
                    List.any_eq_true.mpr ⟨p, hp, hpx⟩
                  rw [hx] at this
                  exact absurd this (by simp)
            have hxp : (x == p.1) = false := beq_symm_false hpx
            rw [occCount_cons, hxp]
            simp
          have hA : List.map (fun p : κ × Nat => (p.1, p.2 + occCount xs p.1)) (CMap.bump m x) =
              List.map (fun p : κ × Nat => (p.1, p.2 + occCount (x :: xs) p.1)) m ++
                [(x, occCount xs x + 1)] := by
            rw [CMap.bump_neg m x hx, List.map_append, h1]
            simp [Nat.add_comm]
          have h3 : List.filter (fun s : κ => !(List.any m (fun p => p.1 == s))) (x :: xs) =
              x :: List.filter (fun s : κ => !(List.any m (fun p => p.1 == s))) xs := by
            rw [List.filter_cons_of_pos]
            simp [hx]
          have h4 : List.filter (fun y : κ => !(y == x))
              (List.filter (fun s : κ => !(List.any m (fun p => p.1 == s))) xs) =
              List.filter (fun s : κ => (!(List.any m (fun p => p.1 == s))) && !(x == s)) xs := by
            rw [List.filter_filter]
            apply List.filter_congr
            intro s _
            cases hxs : (x == s) with
            | true =>
                have : x = s := eq_of_beq hxs
                subst this
                simp
            | false =>
                have hsx : (s == x) = false := beq_symm_false hxs
                simp [hsx]
          have h5 : List.map (fun s : κ => (s, occCount xs s))
              (firstOccs (List.filter
                (fun s : κ => (!(List.any m (fun p => p.1 == s))) && !(x == s)) xs)) =
              List.map (fun s : κ => (s, occCount (x :: xs) s))
              (firstOccs (List.filter
                (fun s : κ => (!(List.any m (fun p => p.1 == s))) && !(x == s)) xs)) := by
            apply List.map_congr_left
            intro s hs
            have hsmem : s ∈ List.filter
                (fun s : κ => (!(List.any m (fun p => p.1 == s))) && !(x == s)) xs :=
              (mem_firstOccs _ s).mp hs
            have hcond := (List.mem_filter.mp hsmem).2
            have hxs : (x == s) = false := by
              cases hxs : (x == s) with
              | false => rfl
              | true =>
                  rw [hxs] at hcond
                  simp at hcond
            rw [occCount_cons, hxs]
            simp
          have hocc : occCount (x :: xs) x = occCount xs x + 1 := by
            rw [occCount_cons, beq_self_eq_true]
            simp
          rw [h2, hA, h3]
          simp only [firstOccs, h4, h5, List.map_cons, hocc]
          rw [List.append_assoc, List.singleton_append]

theorem foldl_overuseStep (l : List Dict) : ∀ m : CMap String,
    List.foldl overuseStep m l = List.foldl CMap.bump m (l.filterMap storeIdOf) := by
  induction l with
  | nil => intro m; rfl
  | cons d l ih =>
      intro m
      rw [List.foldl_cons, List.filterMap_cons]
      cases h : storeIdOf d with
      | none =>
          rw [ih]
          simp [overuseStep, h]
      | some s =>
          rw [List.foldl_cons]
          rw [← ih (CMap.bump m s)]
          simp [overuseStep, h]

theorem storeIdOf_cases (d : Dict) :
    (storeIdOf d = none ∧
      (Dict.get d "store_id" = JVal.null ∨ Dict.get d "store_id" = JVal.str "")) ∨
    (∃ t, t ≠ "" ∧ storeIdOf d = some t ∧ Dict.get d "store_id" = JVal.str t) := by
  unfold storeIdOf
  cases hg : Dict.get d "store_id" with
  | null => exact Or.inl ⟨rfl, Or.inl rfl⟩
  | str t =>
      by_cases ht : t = ""
      · subst ht
        exact Or.inl ⟨by simp, Or.inr rfl⟩
      · exact Or.inr ⟨t, ht, by simp [ht], rfl⟩

theorem occCount_filterMap_storeIdOf (l : List Dict) (s : String) (hs : s ≠ "") :
    occCount (l.filterMap storeIdOf) s = storeCount l s := by
  induction l with
  | nil => rfl
  | cons d l ih =>
      rw [List.filterMap_cons]
      unfold storeCount
      rw [List.filter_cons]
      rcases storeIdOf_cases d with ⟨h0, hg⟩ | ⟨t, ht, h0, hg⟩
      · have hcond : (Dict.get d "store_id" == JVal.str s) = false := by
          rcases hg with hg | hg <;> rw [hg] <;> simp [beq_iff_eq]
          exact fun he => hs he.symm
        rw [h0, hcond]
        simpa using ih
      · have hcond : (Dict.get d "store_id" == JVal.str s) = (t == s) := by
          rw [hg]
          cases hts : (t == s) with
          | true =>
              have : t = s := eq_of_beq hts
              subst this
              simp
          | false =>
              have : ¬ (t = s) := by simpa using hts
              simp [beq_iff_eq, this]
        rw [h0, hcond, occCount_cons]
        cases hts : (t == s) with
        | true =>
            simp [ih]
            rfl
        | false =>
            simp [hts, ih]
            rfl

theorem mem_filterMap_storeIdOf_ne (l : List Dict) (s : String)
    (h : s ∈ l.filterMap storeIdOf) : s ≠ "" := by
  obtain ⟨d, _, hd⟩ := List.mem_filterMap.mp h
  rcases storeIdOf_cases d with ⟨h0, _⟩ | ⟨t, ht, h0, _⟩
  · rw [h0] at hd
    exact absurd hd (by simp)
  · rw [h0] at hd
    have : t = s := by simpa using hd
    subst this
    exact ht

theorem analyze_overuse_eq (l : List Dict) :
    analyze_overuse l =
      List.filter (fun p => 3 ≤ p.2)
        (List.map (fun s => (s, occCount (l.filterMap storeIdOf) s))
          (firstOccs (l.filterMap storeIdOf))) := by
  unfold analyze_overuse
  rw [foldl_overuseStep, foldl_bump_eq]
  simp

/-! ## Lemmas about the fetcher -/

theorem foldl_fetchStep (w : String → PageResult) (sids : List String) : ∀ acc,
    List.foldl (fetchStep w) acc sids =
      { records := acc.records ++ (sids.map (pageRecords w)).flatten,
        requests := acc.requests ++ sids.map listUrl } := by
  induction sids with
  | nil =>
      intro acc
      simp
  | cons sid sids ih =>
      intro acc
      rw [List.foldl_cons, ih]
      cases hw : w (listUrl sid) with
      | ok body => simp [fetchStep, hw, pageRecords, List.append_assoc]
      | httpError code text => simp [fetchStep, hw, pageRecords, List.append_assoc]
      | exn msg => simp [fetchStep, hw, pageRecords, List.append_assoc]

theorem fetch_all_deliveries_eq (w : String → PageResult) :
    fetch_all_deliveries w =
      { records := (STORE_IDS.map (pageRecords w)).flatten,
        requests := STORE_IDS.map listUrl } := by
  unfold fetch_all_deliveries
  rw [foldl_fetchStep]
  simp

/-! ## Lemmas about dict assignment and merge -/

theorem Dict.set_pos (a : Dict) (k : String) (v : JVal) (h : Dict.hasKey a k = true) :
    Dict.set a k v = List.map (fun p => if p.1 == k then (k, v) else p) a := by
  simp [Dict.set, h]

theorem Dict.set_neg (a : Dict) (k : String) (v : JVal) (h : Dict.hasKey a k = false) :
    Dict.set a k v = a ++ [(k, v)] := by
  simp [Dict.set, h]

theorem Dict.setFun_key (k k2 : String) (v : JVal) :
    ((fun p : String × JVal => p.1 == k2) ∘
      fun p : String × JVal => if p.1 == k then (k, v) else p) =
      (fun p : String × JVal => p.1 == k2) := by
  funext q
  cases hq : (q.1 == k) with
  | true =>
      have hq2 : q.1 = k := by simpa using hq
      simp [Function.comp, hq2]
  | false =>
      have hq2 : ¬ (q.1 = k) := by simpa using hq
      simp [Function.comp, hq2]

theorem Dict.getVal_set_self (a : Dict) (k : String) (v : JVal) :
    Dict.getVal (Dict.set a k v) k = some v := by
  cases h : Dict.hasKey a k with
  | true =>
      rw [Dict.set_pos a k v h]
      unfold Dict.getVal
      rw [List.find?_map, Dict.setFun_key k k v]
      have hsome : (List.find? (fun p : String × JVal => p.1 == k) a).isSome := by
        rw [List.find?_isSome]
        have := List.any_eq_true.mp h
        simpa using this
      obtain ⟨q, hq⟩ := Option.isSome_iff_exists.mp hsome
      have hqk : q.1 = k := by
        have := List.find?_some hq
        simpa using this
      rw [hq]
      simp [hqk]
  | false =>
      rw [Dict.set_neg a k v h]
      unfold Dict.getVal
      have hnone : List.find? (fun p : String × JVal => p.1 == k) a = none := by
        rw [List.find?_eq_none]
        intro p hp hpk
        have : Dict.hasKey a k = true := List.any_eq_true.mpr ⟨p, hp, hpk⟩
        rw [h] at this
        exact Bool.false_ne_true this
      rw [List.find?_append, hnone]
      simp

theorem Dict.getVal_set_other (a : Dict) (k k2 : String) (v : JVal)
    (h : (k == k2) = false) :
    Dict.getVal (Dict.set a k v) k2 = Dict.getVal a k2 := by
  have hne : ¬ (k = k2) := by simpa using h
  cases hk : Dict.hasKey a k with
  | true =>
      rw [Dict.set_pos a k v hk]
      unfold Dict.getVal
      rw [List.find?_map, Dict.setFun_key k k2 v]
      cases hf : List.find? (fun p : String × JVal => p.1 == k2) a with
      | none => simp
      | some q =>
          have hq2 : q.1 = k2 := by
            have := List.find?_some hf
            simpa using this
          have hqk : ¬ (q.1 = k) := by
            rw [hq2]
            exact fun he => hne he.symm
          simp [hqk]
  | false =>
      rw [Dict.set_neg a k v hk]
      unfold Dict.getVal
      rw [List.find?_append]
      cases hf : List.find? (fun p : String × JVal => p.1 == k2) a with
      | none => simp [h]
      | some q => simp

theorem Dict.hasKey_set (a : Dict) (k k2 : String) (v : JVal) :
    Dict.hasKey (Dict.set a k v) k2 = (Dict.hasKey a k2 || (k == k2)) := by
  cases hk : Dict.hasKey a k with
  | true =>
      rw [Dict.set_pos a k v hk]
      unfold Dict.hasKey
      rw [List.any_map, Dict.setFun_key k k2 v]
      cases hks : (k == k2) with
      | true =>
          have : k = k2 := by simpa using hks
          subst this
          rw [Dict.hasKey] at hk
          simp [hk]
      | false => simp
  | false =>
      rw [Dict.set_neg a k v hk]
      unfold Dict.hasKey
      rw [List.any_append]
      simp

theorem Dict.getVal_cons (p : String × JVal) (b : Dict) (k : String) :
    Dict.getVal (p :: b) k = if p.1 == k then some p.2 else Dict.getVal b k := by
  unfold Dict.getVal
  rw [List.find?_cons]
  cases hpk : (p.1 == k) with
  | true => simp
  | false => simp

theorem Dict.getVal_eq_none (b : Dict) (k : String) (h : k ∉ b.map Prod.fst) :
    Dict.getVal b k = none := by
  unfold Dict.getVal
  have : List.find? (fun p : String × JVal => p.1 == k) b = none := by
    rw [List.find?_eq_none]
    intro p hp hpk
    have : p.1 = k := by simpa using hpk
    exact h (this ▸ List.mem_map_of_mem Prod.fst hp)
  rw [this]
  rfl

theorem Dict.getVal_merge (b : Dict) : ∀ (a : Dict) (k : String),
    (b.map Prod.fst).Nodup →
    Dict.getVal (Dict.merge a b) k =
      (match Dict.getVal b k with
       | some v => some v
       | none => Dict.getVal a k) := by
  induction b with
  | nil =>
      intro a k _
      rfl
  | cons p b ih =>
      intro a k hnd
      have hnd2 : (b.map Prod.fst).Nodup := by
        rw [List.map_cons] at hnd
        exact (List.nodup_cons.mp hnd).2
      have hp1 : p.1 ∉ b.map Prod.fst := by
        rw [List.map_cons] at hnd
        exact (List.nodup_cons.mp hnd).1
      show Dict.getVal (Dict.merge (Dict.set a p.1 p.2) b) k = _
      rw [ih (Dict.set a p.1 p.2) k hnd2, Dict.getVal_cons]
      cases hpk : (p.1 == k) with
      | true =>
          have hk : p.1 = k := by simpa using hpk
          have hbk : Dict.getVal b k = none := by
            apply Dict.getVal_eq_none
            rw [← hk]
            exact hp1
          rw [hbk]
          subst hk
          simp [Dict.getVal_set_self]
      | false =>
          cases hbk : Dict.getVal b k with
          | some v => simp
          | none =>
              rw [Dict.getVal_set_other a p.1 k p.2 hpk]
              simp

theorem tagRecord_getVal (sid : String) (d : Dict) (hd : (d.map Prod.fst).Nodup) :
    Dict.getVal (tagRecord sid d) "store_id" =
      some ((Dict.getVal d "store_id").getD (JVal.str sid)) := by
  unfold tagRecord
  rw [Dict.getVal_merge d [("store_id", JVal.str sid)] "store_id" hd]
  cases hv : Dict.getVal d "store_id" with
  | none => simp [Dict.getVal]
  | some v => simp

/-! ## Lemmas about the raise-aware cancellation pass -/

theorem earlyStepE_crash (fd : DetailOracle) (d : Dict) (h : statusCrashes d = true)
    (m : CMap (Option String)) :
    earlyStepE fd m d =
      Except.error "AttributeError: NoneType object has no attribute upper" := by
  have h2 := h
  simp only [statusCrashes, Bool.and_eq_true, decide_eq_true_eq] at h2
  obtain ⟨h3, h4⟩ := h2
  simp [earlyStepE, h3, h4]

theorem earlyStepE_ok (fd : DetailOracle) (d : Dict) (h : statusCrashes d = false)
    (m : CMap (Option String)) :
    earlyStepE fd m d = Except.ok (earlyStep fd m d) := by
  cases ht : (orderIdVal d).truthy with
  | false =>
      have hm : earlyStep fd m d = m := by
        simp [earlyStep, ht]
      simp [earlyStepE, ht, hm]
  | true =>
      have hst : Dict.getVal d "status" ≠ some JVal.null := by
        intro he
        rw [statusCrashes, ht] at h
        simp [he] at h
      cases hg : Dict.getVal d "status" with
      | none => simp [earlyStepE, ht, hg]
      | some v =>
          cases v with
          | null => exact absurd hg hst
          | str s => simp [earlyStepE, ht, hg]

theorem foldlM_earlyStepE_ok (fd : DetailOracle) (l : List Dict)
    (h : l.any statusCrashes = false) : ∀ m,
    List.foldlM (earlyStepE fd) m l = Except.ok (List.foldl (earlyStep fd) m l) := by
  induction l with
  | nil =>
      intro m
      rfl
  | cons d l ih =>
      intro m
      have hd : statusCrashes d = false := by
        cases hc : statusCrashes d with
        | false => rfl
        | true =>
            rw [List.any_cons, hc] at h
            simp at h
      have hl : l.any statusCrashes = false := by
        rw [List.any_cons, hd] at h
        simpa using h
      rw [List.foldlM_cons, earlyStepE_ok fd d hd m, List.foldl_cons]
      exact ih hl (earlyStep fd m d)

theorem foldlM_earlyStepE_error (fd : DetailOracle) (l : List Dict)
    (h : l.any statusCrashes = true) : ∀ m,
    List.foldlM (earlyStepE fd) m l =
      Except.error "AttributeError: NoneType object has no attribute upper" := by
  induction l with
  | nil =>
      intro m
      rw [List.any_nil] at h
      exact absurd h (by simp)
  | cons d l ih =>
      intro m
      cases hd : statusCrashes d with
      | true =>
          rw [List.foldlM_cons, earlyStepE_crash fd d hd m]
          rfl
      | false =>
          have hl : l.any statusCrashes = true := by
            rw [List.any_cons, hd] at h
            simpa using h
          rw [List.foldlM_cons, earlyStepE_ok fd d hd m]
          exact ih hl (earlyStep fd m d)

theorem check_early_cancellationsE_ok (fd : DetailOracle) (l : List Dict)
    (h : l.any statusCrashes = false) :
    check_early_cancellationsE fd l = Except.ok (check_early_cancellations fd l) := by
  unfold check_early_cancellationsE check_early_cancellations
  rw [foldlM_earlyStepE_ok fd l h]
  rfl

theorem check_early_cancellationsE_error (fd : DetailOracle) (l : List Dict)
    (h : l.any statusCrashes = true) :
    check_early_cancellationsE fd l =
      Except.error "AttributeError: NoneType object has no attribute upper" := by
  unfold check_early_cancellationsE
  rw [foldlM_earlyStepE_error fd l h]
  rfl

theorem isEmpty_false_of_any {α : Type} (l : List α) (p : α → Bool)
    (h : l.any p = true) : l.isEmpty = false := by
  cases l with
  | nil =>
      rw [List.any_nil] at h
      exact absurd h (by simp)
  | cons a l => rfl

/-! ## Claim theorems -/

/-- C1: for every collection of tagged delivery records, `analyze_overuse`
returns exactly the store identifiers whose occurrence count in the input
is at least 3, each paired with its exact occurrence count, and no store
with count below 3 appears.  (The empty identifier is not a store
identifier: a record whose `store_id` field is empty carries no owning
store, and the truthiness guard of the loop skips it.) -/
theorem analyze_overuse_exact (l : List Dict) (s : String) (c : Nat) :
    (s, c) ∈ analyze_overuse l ↔ s ≠ "" ∧ storeCount l s = c ∧ 3 ≤ c := by
  rw [analyze_overuse_eq l]
  constructor
  · intro h
    have hmem := List.mem_filter.mp h
    obtain ⟨a, ha, hac⟩ := List.mem_map.mp hmem.1
    obtain ⟨rfl, hocc⟩ := Prod.mk.injEq _ _ _ _ |>.mp hac
    have hxs : a ∈ l.filterMap storeIdOf := (mem_firstOccs _ a).mp ha
    have hs : a ≠ "" := mem_filterMap_storeIdOf_ne l a hxs
    refine ⟨hs, ?_, ?_⟩
    · rw [← occCount_filterMap_storeIdOf l a hs, hocc]
    · have := hmem.2
      simpa using this
  · rintro ⟨hs, hsc, h3⟩
    apply List.mem_filter.mpr
    refine ⟨?_, by simpa using h3⟩
    apply List.mem_map.mpr
    refine ⟨s, ?_, ?_⟩
    · apply (mem_firstOccs _ s).mpr
      apply (occCount_pos _ s).mp
      rw [occCount_filterMap_storeIdOf l s hs, hsc]
      omega
    · rw [occCount_filterMap_storeIdOf l s hs, hsc]

/-- C9: the order of the result of `analyze_overuse` is the insertion order of
of the first occurrence of each store identifier in the input (`firstOccs` of the
truthy `store_id` values of the records), not alphabetic or numeric order; the
result is a function of the input list alone, hence deterministic. -/
theorem analyze_overuse_order (l : List Dict) :
    List.map Prod.fst (analyze_overuse l) =
      List.filter (fun s => 3 ≤ storeCount l s) (firstOccs (l.filterMap storeIdOf)) := by
  rw [analyze_overuse_eq l, List.filter_map, List.map_map]
  have h1 : (Prod.fst ∘ fun s : String => (s, occCount (l.filterMap storeIdOf) s)) =
      id := rfl
  rw [h1, List.map_id]
  apply List.filter_congr
  intro s hs
  have hxs : s ∈ l.filterMap storeIdOf := (mem_firstOccs _ s).mp hs
  have hsne := mem_filterMap_storeIdOf_ne l s hxs
  simp [Function.comp, occCount_filterMap_storeIdOf l s hsne]

/-- C10: a record whose `store_id` field is missing, null or empty is
silently excluded by `analyze_overuse`: deleting it from the input leaves
the result unchanged, so it is counted toward no store and contributes to
no output pair.  (The aggregator is a total function, so no exception is
possible on such records.) -/
theorem analyze_overuse_skips_missing (l1 l2 : List Dict) (d : Dict)
    (h : storeIdOf d = none) :
    analyze_overuse (l1 ++ d :: l2) = analyze_overuse (l1 ++ l2) := by
  unfold analyze_overuse
  rw [List.foldl_append, List.foldl_append, List.foldl_cons]
  have hstep : overuseStep (List.foldl overuseStep [] l1) d =
      List.foldl overuseStep [] l1 := by
    simp [overuseStep, h]
  rw [hstep]

/-- Witness for C10 at a concrete input: a record with no `store_id` key
between two records of store A does not change the aggregation. -/
theorem analyze_overuse_skips_missing_witness :
    analyze_overuse ([[("store_id", JVal.str "A")]] ++
        [("status", JVal.str "ok")] :: [[("store_id", JVal.str "A")]]) =
      analyze_overuse ([[("store_id", JVal.str "A")]] ++ [[("store_id", JVal.str "A")]]) :=
  analyze_overuse_skips_missing _ _ _ (by decide)

/-- C2 counterexample: a world whose list response for the first store
carries a next-page pointer with one further record on the second page.
`fetch_all_deliveries` returns only the record of the first page; the
second-page record is absent, so the fetcher does not follow the pointer
and the returned collection does not contain the records of all pages. -/
theorem fetch_pagination_cx :
    wPaged (listUrl sid1) =
      PageResult.ok { deliveries := [recPage1], next := some page2Url } ∧
    wPaged page2Url = PageResult.ok { deliveries := [recPage2], next := none } ∧
    (fetch_all_deliveries wPaged).records = [tagRecord sid1 recPage1] ∧
    tagRecord sid1 recPage2 ∉ (fetch_all_deliveries wPaged).records := by
  refine ⟨by decide, by decide, by decide, by decide⟩

/-- C2 corrected: for every identifier, `fetch_all_deliveries` issues
exactly one list request (the nine store URLs, in order, and nothing
else) and returns only the records of each single response; the
next-page pointer in a response body is never consulted, so the result
coincides for any two worlds that agree on the nine first-page
responses. -/
theorem fetch_ignores_pagination (w w2 : String → PageResult)
    (h : ∀ sid ∈ STORE_IDS, w (listUrl sid) = w2 (listUrl sid)) :
    (fetch_all_deliveries w).requests = STORE_IDS.map listUrl ∧
    (fetch_all_deliveries w).records = (STORE_IDS.map (pageRecords w)).flatten ∧
    fetch_all_deliveries w = fetch_all_deliveries w2 := by
  refine ⟨?_, ?_, ?_⟩
  · rw [fetch_all_deliveries_eq]
  · rw [fetch_all_deliveries_eq]
  · rw [fetch_all_deliveries_eq, fetch_all_deliveries_eq]
    have hmap : STORE_IDS.map (pageRecords w) = STORE_IDS.map (pageRecords w2) := by
      apply List.map_congr_left
      intro sid hsid
      unfold pageRecords
      rw [h sid hsid]
    rw [hmap]

/-- Witness for the corrected statement of C2 at a concrete world. -/
theorem fetch_ignores_pagination_witness :
    (fetch_all_deliveries wEmptyOk).requests = STORE_IDS.map listUrl ∧
    (fetch_all_deliveries wEmptyOk).records =
      (STORE_IDS.map (pageRecords wEmptyOk)).flatten ∧
    fetch_all_deliveries wEmptyOk = fetch_all_deliveries wEmptyOk :=
  fetch_ignores_pagination wEmptyOk wEmptyOk (fun _ _ => rfl)

/-- C4 counterexample: a payload record that itself populates `store_id`
keeps its own value through the tagging merge (the spread `**deliv` comes
after the tag in the dict literal, so the payload wins): the single
record fetched under `sid1` carries `spoofed-store`, not `sid1`. -/
theorem fetch_tag_override_cx :
    (fetch_all_deliveries wSpoof).records = [tagRecord sid1 spoofRec] ∧
    Dict.get (tagRecord sid1 spoofRec) "store_id" = JVal.str "spoofed-store" ∧
    "spoofed-store" ≠ sid1 ∧ "spoofed-store" ∉ STORE_IDS := by
  refine ⟨by decide, by decide, by decide, by decide⟩

/-- C4 corrected: every record returned by `fetch_all_deliveries` is the
tag-merge of a payload record for one of the configured stores, and its
`store_id` field holds the own value of the payload whenever the payload
populated that field, and the identifier it was fetched under only
otherwise. -/
theorem fetch_tag_payload_precedence (w : String → PageResult) (r : Dict)
    (hr : r ∈ (fetch_all_deliveries w).records) :
    ∃ sid d, sid ∈ STORE_IDS ∧ r = tagRecord sid d ∧
      ((d.map Prod.fst).Nodup →
        Dict.getVal r "store_id" =
          some ((Dict.getVal d "store_id").getD (JVal.str sid))) := by
  rw [fetch_all_deliveries_eq] at hr
  obtain ⟨bs, hbs, hrb⟩ := List.mem_flatten.mp hr
  obtain ⟨sid, hsid, rfl⟩ := List.mem_map.mp hbs
  unfold pageRecords at hrb
  cases hw : w (listUrl sid) with
  | ok body =>
      rw [hw] at hrb
      simp only at hrb
      obtain ⟨d, hd, rfl⟩ := List.mem_map.mp hrb
      exact ⟨sid, d, hsid, rfl, fun hnd => tagRecord_getVal sid d hnd⟩
  | httpError code text =>
      rw [hw] at hrb
      simp at hrb
  | exn msg =>
      rw [hw] at hrb
      simp at hrb

/-- Witness for the corrected statement of C4 at a concrete fetched record. -/
theorem fetch_tag_payload_precedence_witness :
    ∃ sid d, sid ∈ STORE_IDS ∧ tagRecord sid1 spoofRec = tagRecord sid d ∧
      ((d.map Prod.fst).Nodup →
        Dict.getVal (tagRecord sid1 spoofRec) "store_id" =
          some ((Dict.getVal d "store_id").getD (JVal.str sid))) :=
  fetch_tag_payload_precedence wSpoof (tagRecord sid1 spoofRec) (by decide)

/-- C3: in the early-cancellation pass, for a canceled (or failed) record
whose fetched detail shows last-known delivery status `scheduled` or
`en_route_to_pickup` (the API token the spec renders as
"en route to pickup"), the `early_cancels` counter of the store of the record
increments by exactly 1; for `completed` or any other value outside those
two pre-pickup states, the counter map is unchanged.  The counter is the
map `check_early_cancellations` folds with `earlyStep` before its final
positivity filter. -/
theorem early_cancellation_increment (o : DetailOracle) (l : List Dict)
    (d : Dict) (cd : Dict)
    (horder : (orderIdVal d).truthy = true)
    (hcancel : cancelEligible d = true)
    (hdetail : o (storeKey d) (orderIdVal d).toStr = DetailResult.ok cd) :
    (pyUpper (Dict.getStrD cd "last_known_delivery_status" "") = "SCHEDULED" ∨
       pyUpper (Dict.getStrD cd "last_known_delivery_status" "") = "EN_ROUTE_TO_PICKUP" →
      CMap.getD (List.foldl (earlyStep o) [] (l ++ [d])) (storeKey d) =
        CMap.getD (List.foldl (earlyStep o) [] l) (storeKey d) + 1) ∧
    (¬ (pyUpper (Dict.getStrD cd "last_known_delivery_status" "") = "SCHEDULED" ∨
        pyUpper (Dict.getStrD cd "last_known_delivery_status" "") = "EN_ROUTE_TO_PICKUP") →
      List.foldl (earlyStep o) [] (l ++ [d]) = List.foldl (earlyStep o) [] l) := by
  rw [List.foldl_append, List.foldl_cons, List.foldl_nil]
  constructor
  · intro hls
    have hcontains :
        List.contains ["SCHEDULED", "EN_ROUTE_TO_PICKUP"]
          (pyUpper (Dict.getStrD cd "last_known_delivery_status" "")) = true := by
      rcases hls with h | h <;> simp [h, List.contains]
    simp only [earlyStep, horder, hcancel, hdetail, hcontains, if_true]
    exact CMap.getD_bump_self _ _
  · intro hls
    obtain ⟨h1, h2⟩ := not_or.mp hls
    have hcontains :
        List.contains ["SCHEDULED", "EN_ROUTE_TO_PICKUP"]
          (pyUpper (Dict.getStrD cd "last_known_delivery_status" "")) = false := by
      simp [List.contains, h1, h2]
    simp only [earlyStep, horder, hcancel, hdetail, hcontains, if_true]
    simp

/-- Witness for C3 at a concrete record and detail: a canceled record of
store `sid1` whose detail shows `en_route_to_pickup` bumps the counter
from 0 to 1. -/
theorem early_cancellation_increment_witness :
    CMap.getD (List.foldl (earlyStep oracleSched) [] ([] ++ [cancelRec]))
        (storeKey cancelRec) =
      CMap.getD (List.foldl (earlyStep oracleSched) [] []) (storeKey cancelRec) + 1 :=
  (early_cancellation_increment oracleSched [] cancelRec
      [("last_known_delivery_status", JVal.str "en_route_to_pickup")]
      (by decide) (by decide) rfl).1 (by decide)

/-- C8 counterexample: the early-cancellation pass is not a pure function
of its input collection: on the same one-record collection, a run whose
detail fetch reports a pre-pickup cancellation flags the store while a
run whose detail fetch reports `completed` flags nothing.  (A second run
re-issues the detail fetches, so this is exactly the two-runs scenario.) -/
theorem early_cancellations_not_pure_cx :
    check_early_cancellations oracleSched [cancelRec] = [(some sid1, 1)] ∧
    check_early_cancellations oracleDone [cancelRec] = [] ∧
    check_early_cancellations oracleSched [cancelRec] ≠
      check_early_cancellations oracleDone [cancelRec] := by
  refine ⟨by decide, by decide, by decide⟩

/-- C8 corrected: `analyze_overuse` is a pure function of the fetched
collection, so running it twice on the same collection trivially agrees;
the early-cancellation pass re-fetches per-record detail on every run and
is a function of the collection together with the detail responses: two
runs on the same collection yield identical results whenever the detail
responses for the queries of the records coincide. -/
theorem early_cancellations_oracle_determined (o1 o2 : DetailOracle) (l : List Dict)
    (h : ∀ d ∈ l,
      o1 (storeKey d) (orderIdVal d).toStr = o2 (storeKey d) (orderIdVal d).toStr) :
    check_early_cancellations o1 l = check_early_cancellations o2 l := by
  unfold check_early_cancellations
  have hfold : List.foldl (earlyStep o1) [] l = List.foldl (earlyStep o2) [] l := by
    apply List.foldl_ext
    intro m d hd
    simp only [earlyStep]
    rw [h d hd]
  rw [hfold]

/-- Witness for the corrected statement of C8: two oracles that agree on the
one query of `cancelRec` produce the same (non-empty) result. -/
theorem early_cancellations_oracle_determined_witness :
    check_early_cancellations oracleSched [cancelRec] =
      check_early_cancellations oracleSched2 [cancelRec] :=
  early_cancellations_oracle_determined oracleSched oracleSched2 [cancelRec] (by decide)

/-- C5 counterexample: a run with the token set whose fetched collection
holds one record with a truthy order identifier and a null `status` value
terminates with exit code 1 — line 110 raises an uncaught
`AttributeError` inside the cancellation pass — refuting "in every other
terminating run the exit code is 0". -/
theorem null_status_crash_cx :
    pyTruthyOpt envTok.uber_token = true ∧
    (fetch_all_deliveries wPoison).records.isEmpty = false ∧
    (runMain envTok wPoison oracleNone smtpOk).exitCode = 1 := by
  refine ⟨by decide, by decide, by decide⟩

/-- C5 corrected: if `UBER_TOKEN` is unset (or set to the empty string,
equally falsy) the process prints the configuration error and exits with
code 1 without issuing a single network request; with a token, the run
exits 0 — including the no-data-fetched and no-incidents cases — unless a
fetched record carries a truthy order identifier together with a null
`status` field, in which case the status read of the cancellation pass
(line 110, outside the `try`) raises an uncaught `AttributeError` and the
process terminates with exit code 1, before any notifier call. -/
theorem main_exit_codes (env : Env) (w : String → PageResult)
    (fd : DetailOracle) (smtp : SmtpOracle) :
    (pyTruthyOpt env.uber_token = false →
      runMain env w fd smtp =
        { exitCode := 1, requests := [],
          printed := ["Error: Set UBER_TOKEN env var"], mailOps := [] }) ∧
    (pyTruthyOpt env.uber_token = true →
      (fetch_all_deliveries w).records.any statusCrashes = false →
      (runMain env w fd smtp).exitCode = 0) ∧
    (pyTruthyOpt env.uber_token = true →
      (fetch_all_deliveries w).records.any statusCrashes = true →
      (runMain env w fd smtp).exitCode = 1 ∧
      (runMain env w fd smtp).mailOps = []) := by
  refine ⟨?_, ?_, ?_⟩
  · intro h
    simp [runMain, h]
  · intro h hnc
    simp only [runMain, h]
    cases he : (fetch_all_deliveries w).records.isEmpty with
    | true => simp [he]
    | false =>
        rw [check_early_cancellationsE_ok fd _ hnc]
        simp [he]
  · intro h hc
    have he : (fetch_all_deliveries w).records.isEmpty = false :=
      isEmpty_false_of_any _ _ hc
    simp only [runMain, h]
    rw [check_early_cancellationsE_error fd _ hc]
    simp [he]

/-- Witness for C5 at concrete inputs: unset token exits 1 with no
requests; set token over an empty world exits 0; set token over the
poison world exits 1 with no mail. -/
theorem main_exit_codes_witness :
    runMain envNoTok wEmptyOk oracleNone smtpOk =
      { exitCode := 1, requests := [],
        printed := ["Error: Set UBER_TOKEN env var"], mailOps := [] } ∧
    (runMain envTok wEmptyOk oracleNone smtpOk).exitCode = 0 ∧
    ((runMain envTok wPoison oracleNone smtpOk).exitCode = 1 ∧
      (runMain envTok wPoison oracleNone smtpOk).mailOps = []) :=
  ⟨(main_exit_codes envNoTok wEmptyOk oracleNone smtpOk).1 (by decide),
   (main_exit_codes envTok wEmptyOk oracleNone smtpOk).2.1 (by decide) (by decide),
   (main_exit_codes envTok wPoison oracleNone smtpOk).2.2 (by decide) (by decide)⟩

/-- C6 counterexample: mail credentials are absent and an overuse alert
is due (four records for `sid1`), but the fetched collection also holds
the poison record: the run dies in the cancellation pass (line 144)
before any notifier call, exits 1, and the console alert is never
written — refuting "the run still completes with exit code 0". -/
theorem alert_lost_to_crash_cx :
    credsAbsent envTok.mail = true ∧
    analyze_overuse (fetch_all_deliveries wPoisonOveruse).records ≠ [] ∧
    (runMain envTok wPoisonOveruse oracleNone smtpOk).exitCode = 1 ∧
    (runMain envTok wPoisonOveruse oracleNone smtpOk).mailOps = [] := by
  refine ⟨by decide, by decide, by decide, by decide⟩

/-- C6 corrected: for every subject and body, when mail credentials are
absent `send_email` produces the console alert carrying exactly that
subject and body instead of attempting a send (its result does not depend
on the SMTP session at all), and when a send is attempted any error
raised by the session is caught and turned into the logged `failed`
outcome — it never propagates out of the notifier; a run with a valid
token ends with exit code 0 provided the cancellation pass does not die
first on a fetched record with a truthy order identifier and a null
`status` field (such a record aborts the run with exit code 1 before any
notifier call). -/
theorem send_email_degraded_and_caught (cfg : MailConfig) (smtp smtp2 : SmtpOracle)
    (subject body : String) (env : Env) (w : String → PageResult) (fd : DetailOracle) :
    (credsAbsent cfg = true →
      send_email cfg smtp subject body = MailOp.consoleAlert subject body ∧
      send_email cfg smtp subject body = send_email cfg smtp2 subject body) ∧
    (credsAbsent cfg = false → ∀ e, smtp subject body = Except.error e →
      send_email cfg smtp subject body = MailOp.failed subject e) ∧
    (pyTruthyOpt env.uber_token = true →
      (fetch_all_deliveries w).records.any statusCrashes = false →
      (runMain env w fd smtp).exitCode = 0) := by
  refine ⟨?_, ?_, ?_⟩
  · intro h
    constructor <;> simp [send_email, h]
  · intro h e he
    simp [send_email, h, he]
  · intro h hnc
    simp only [runMain, h]
    cases he : (fetch_all_deliveries w).records.isEmpty with
    | true => simp [he]
    | false =>
        rw [check_early_cancellationsE_ok fd _ hnc]
        simp [he]

/-- Witness for C6: console fallback without credentials, caught failure
with credentials, and a completed exit-0 run over a crash-free world. -/
theorem send_email_degraded_and_caught_witness :
    send_email cfgNoCreds smtpOk "S" "B" = MailOp.consoleAlert "S" "B" ∧
    send_email cfgCreds smtpFail "S" "B" = MailOp.failed "S" "auth failed" ∧
    (runMain envTok wEmptyOk oracleNone smtpOk).exitCode = 0 :=
  ⟨((send_email_degraded_and_caught cfgNoCreds smtpOk smtpFail "S" "B"
      envTok wEmptyOk oracleNone).1 (by decide)).1,
   (send_email_degraded_and_caught cfgCreds smtpFail smtpOk "S" "B"
      envTok wEmptyOk oracleNone).2.1 (by decide) "auth failed" rfl,
   (send_email_degraded_and_caught cfgNoCreds smtpOk smtpOk "S" "B"
      envTok wEmptyOk oracleNone).2.2 (by decide) (by decide)⟩

/-- C7 counterexample: with a valid token and every list request
returning zero records, the run exits 0, sends no mail — but the line it
prints is the no-data line; the "No incidents" indication never appears,
because `exit(0)` fires before the aggregators run. -/
theorem no_data_no_incidents_cx :
    runMain envTok wEmptyOk oracleNone smtpOk =
      { exitCode := 0, requests := STORE_IDS.map listUrl,
        printed := ["No data fetched - check API/token or endpoints."],
        mailOps := [] } ∧
    "Daily check complete: No incidents." ∉
      (runMain envTok wEmptyOk oracleNone smtpOk).printed := by
  refine ⟨by decide, by decide⟩

/-- C7 corrected: given zero fetched records, both aggregators return the
empty result on the empty collection, no mail is sent, and the run exits
0 — with the "No data fetched" indication; the "No incidents" line is
printed only on runs where records were fetched and neither aggregator
flagged anything. -/
theorem no_data_run (env : Env) (w : String → PageResult) (fd : DetailOracle)
    (smtp : SmtpOracle)
    (htok : pyTruthyOpt env.uber_token = true)
    (hempty : (fetch_all_deliveries w).records = []) :
    runMain env w fd smtp =
      { exitCode := 0, requests := (fetch_all_deliveries w).requests,
        printed := ["No data fetched - check API/token or endpoints."],
        mailOps := [] } ∧
    analyze_overuse [] = [] ∧ check_early_cancellations fd [] = [] := by
  refine ⟨?_, rfl, rfl⟩
  simp [runMain, htok, hempty]

/-- Witness for the corrected statement of C7 at a concrete empty world. -/
theorem no_data_run_witness :
    runMain envTok wEmptyOk oracleNone smtpOk =
      { exitCode := 0, requests := (fetch_all_deliveries wEmptyOk).requests,
        printed := ["No data fetched - check API/token or endpoints."],
        mailOps := [] } ∧
    analyze_overuse [] = [] ∧ check_early_cancellations oracleNone [] = [] :=
  no_data_run envTok wEmptyOk oracleNone smtpOk (by decide) (by decide)
